import Mathlib

/-!
# Anchor — verification of the snapshot store and auth core

Shallow embedding of the Anchor version-control server and CLI client
(`apps/backend/svcs.py`, `apps/backend/token_manager.py`,
`apps/backend/dependencies.py`, `apps/backend/fingerprint.py`,
`apps/backend/authorization.py`, `apps/cli/git.py`) together with proofs
about the embedded code.

Machine integers are modelled as `Nat` with explicit reduction mod `2^32`
where the source relies on 32-bit arithmetic (only inside SHA-256).
Byte strings are `List Nat` with every element < 256.
-/

set_option maxRecDepth 100000

namespace Anchor

/-! ## SHA-256 (hashlib.sha256), executable over `Nat` -/

/-- Truncate to 32 bits. -/
def m32 (x : Nat) : Nat := x % 4294967296

/-- Rotate a 32-bit word right by `n` bits. -/
def rotr (n x : Nat) : Nat := m32 ((x >>> n) ||| (x <<< (32 - n)))

/-- Bitwise complement of a 32-bit word. -/
def notW (x : Nat) : Nat := x ^^^ 4294967295

def smallSigma0 (x : Nat) : Nat := rotr 7 x ^^^ rotr 18 x ^^^ (x >>> 3)
def smallSigma1 (x : Nat) : Nat := rotr 17 x ^^^ rotr 19 x ^^^ (x >>> 10)
def bigSigma0 (x : Nat) : Nat := rotr 2 x ^^^ rotr 13 x ^^^ rotr 22 x
def bigSigma1 (x : Nat) : Nat := rotr 6 x ^^^ rotr 11 x ^^^ rotr 25 x
def chW (e f g : Nat) : Nat := (e &&& f) ^^^ (notW e &&& g)
def majW (a b c : Nat) : Nat := (a &&& b) ^^^ (a &&& c) ^^^ (b &&& c)

/-- The 64 SHA-256 round constants (decimal). -/
def shaK : List Nat :=
  [1116352408, 1899447441, 3049323471, 3921009573, 961987163,
   1508970993, 2453635748, 2870763221, 3624381080, 310598401,
   607225278, 1426881987, 1925078388, 2162078206, 2614888103,
   3248222580, 3835390401, 4022224774, 264347078, 604807628,
   770255983, 1249150122, 1555081692, 1996064986, 2554220882,
   2821834349, 2952996808, 3210313671, 3336571891, 3584528711,
   113926993, 338241895, 666307205, 773529912, 1294757372,
   1396182291, 1695183700, 1986661051, 2177026350, 2456956037,
   2730485921, 2820302411, 3259730800, 3345764771, 3516065817,
   3600352804, 4094571909, 275423344, 430227734, 506948616,
   659060556, 883997877, 958139571, 1322822218, 1537002063,
   1747873779, 1955562222, 2024104815, 2227730452, 2361852424,
   2428436474, 2756734187, 3204031479, 3329325298]

/-- The initial SHA-256 state (decimal). -/
def shaH0 : List Nat :=
  [1779033703, 3144134277, 1013904242, 2773480762,
   1359893119, 2600822924, 528734635, 1541459225]

/-- `n` big-endian bytes of `x`. -/
def bytesBE : Nat → Nat → List Nat
  | 0, _ => []
  | n + 1, x => ((x >>> (8 * n)) % 256) :: bytesBE n x

/-- SHA-256 padding: append `0x80`, zeros to 56 mod 64, then the 64-bit
big-endian bit length. -/
def padMsg (msg : List Nat) : List Nat :=
  let L := msg.length
  let k := (55 + 64 - (L % 64)) % 64
  msg ++ (0x80 :: List.replicate k 0) ++ bytesBE 8 (8 * L)

/-- Group bytes into big-endian 32-bit words (input length a multiple of 4). -/
def toWords : List Nat → List Nat
  | a :: b :: c :: d :: rest =>
      ((((a <<< 8 ||| b) <<< 8) ||| c) <<< 8 ||| d) :: toWords rest
  | _ => []

/-- Split a word list into 16-word blocks (`fuel` bounds the recursion;
`toBlocks` supplies `fuel = length`, which always suffices). -/
def toBlocksAux : Nat → List Nat → List (List Nat)
  | 0, _ => []
  | _, [] => []
  | n + 1, w :: ws => ((w :: ws).take 16) :: toBlocksAux n ((w :: ws).drop 16)

/-- Split a word list into 16-word blocks. -/
def toBlocks (ws : List Nat) : List (List Nat) := toBlocksAux ws.length ws

/-- Extend a 16-word block by `n` further schedule words. -/
def extendSchedule : Nat → List Nat → List Nat
  | 0, ws => ws
  | n + 1, ws =>
      let i := ws.length
      let w := m32 (smallSigma1 (ws.getD (i - 2) 0) + ws.getD (i - 7) 0 +
                    smallSigma0 (ws.getD (i - 15) 0) + ws.getD (i - 16) 0)
      extendSchedule n (ws ++ [w])

/-- One SHA-256 compression round on the 8-word state. -/
def compressRound (st : List Nat) (kw : Nat × Nat) : List Nat :=
  match st with
  | [a, b, c, d, e, f, g, hh] =>
      let t1 := m32 (hh + bigSigma1 e + chW e f g + kw.1 + kw.2)
      let t2 := m32 (bigSigma0 a + majW a b c)
      [m32 (t1 + t2), a, b, c, m32 (d + t1), e, f, g]
  | other => other

/-- Compress one 16-word block into the running state. -/
def compressBlock (hs : List Nat) (block : List Nat) : List Nat :=
  let ws := extendSchedule 48 block
  let st := (shaK.zip ws).foldl compressRound hs
  (hs.zip st).map fun p => m32 (p.1 + p.2)

/-- SHA-256 digest of a byte string, as 8 32-bit words. -/
def sha256words (msg : List Nat) : List Nat :=
  (toBlocks (toWords (padMsg msg))).foldl compressBlock shaH0

/-- Lowercase hex digit. -/
def hexDigitChar (n : Nat) : Char :=
  if n < 10 then Char.ofNat (48 + n) else Char.ofNat (87 + n)

/-- The 8 lowercase hex characters of a 32-bit word, most significant first. -/
def wordHexChars (w : Nat) : List Char :=
  (List.range 8).map fun i => hexDigitChar ((w >>> (4 * (7 - i))) &&& 15)

/-- `hashlib.sha256(msg).hexdigest()` as a list of 64 characters. -/
def sha256hexChars (msg : List Nat) : List Char :=
  (sha256words msg).foldr (fun w acc => wordHexChars w ++ acc) []

/-- `hashlib.sha256(msg).hexdigest()`. -/
def sha256hex (msg : List Nat) : String :=
  String.mk (sha256hexChars msg)

/-! ## UTF-8 encoding (`str.encode()`) -/

/-- UTF-8 bytes of one character. -/
def utf8Char (c : Char) : List Nat :=
  let n := c.toNat
  if n < 0x80 then [n]
  else if n < 0x800 then [0xC0 ||| (n >>> 6), 0x80 ||| (n &&& 0x3F)]
  else if n < 0x10000 then
    [0xE0 ||| (n >>> 12), 0x80 ||| ((n >>> 6) &&& 0x3F), 0x80 ||| (n &&& 0x3F)]
  else
    [0xF0 ||| (n >>> 18), 0x80 ||| ((n >>> 12) &&& 0x3F),
     0x80 ||| ((n >>> 6) &&& 0x3F), 0x80 ||| (n &&& 0x3F)]

/-- `s.encode()`: UTF-8 bytes of a string. -/
def strBytes (s : String) : List Nat :=
  s.data.foldr (fun c acc => utf8Char c ++ acc) []

/-- `hashlib.sha256(s.encode()).hexdigest()`. -/
def sha256hexS (s : String) : String := sha256hex (strBytes s)

/-! ## Python string helpers -/

/-- Python `str.strip()` whitespace test (space, tab, LF, CR, VT, FF). -/
def isPySpace (c : Char) : Bool :=
  c.toNat = 32 || c.toNat = 9 || c.toNat = 10 || c.toNat = 13 ||
  c.toNat = 11 || c.toNat = 12

/-- Python `s.strip()`. -/
def pyStrip (s : String) : String :=
  String.mk (((s.data.dropWhile isPySpace).reverse.dropWhile isPySpace).reverse)

/-- Python string `<` on two character lists (code-point lexicographic). -/
def strLtChars : List Char → List Char → Bool
  | [], [] => false
  | [], _ :: _ => true
  | _ :: _, [] => false
  | a :: as, b :: bs =>
      if a.toNat < b.toNat then true
      else if b.toNat < a.toNat then false
      else strLtChars as bs

/-- Insert one key/value pair into a key-sorted association list. -/
def insertByKey (p : String × α) : List (String × α) → List (String × α)
  | [] => [p]
  | q :: qs => if strLtChars p.1.data q.1.data then p :: q :: qs
               else q :: insertByKey p qs

/-- Sort an association list by key, as `sort_keys=True` does. -/
def sortByKey (l : List (String × α)) : List (String × α) :=
  l.foldr insertByKey []

/-- Python `str.split(sep)` on character lists (auxiliary accumulator form). -/
def splitOnAux (sep : Char) : List Char → List Char → List (List Char)
  | [], cur => [cur.reverse]
  | c :: rest, cur =>
      if c = sep then cur.reverse :: splitOnAux sep rest []
      else splitOnAux sep rest (c :: cur)

/-- Python `str.split(sep)`. -/
def splitOn (sep : Char) (cs : List Char) : List (List Char) :=
  splitOnAux sep cs []

/-- Decimal digit characters of `n`, most significant first (`fuel` bounds the
division recursion; `pyIntRepr` passes `n + 1`, which always suffices). -/
def decChars : Nat → Nat → List Char
  | 0, _ => []
  | fuel + 1, n =>
      if n < 10 then [hexDigitChar n]
      else decChars fuel (n / 10) ++ [hexDigitChar (n % 10)]

/-- Python `str(n)` / `f"{n}"` for a nonnegative integer. -/
def pyIntRepr (n : Nat) : String := String.mk (decChars (n + 1) n)

/-- Value of a lowercase hex character. -/
def hexCharVal (c : Char) : Nat :=
  if c.toNat ≤ 57 then c.toNat - 48 else c.toNat - 87

/-- Python `int(s, 16)` on the characters of a hex string. -/
def hexVal (cs : List Char) : Nat :=
  cs.foldl (fun a c => 16 * a + hexCharVal c) 0

/-- `int(hexdigest[:8], 16)`: the first 8 hex digits read as a hex integer. -/
def first8hexVal (s : String) : Nat := hexVal (s.data.take 8)

/-! ## Python `json.dumps(·, sort_keys=True)` for tree objects

`json.dumps` with default separators puts `", "` between items and `": "`
between a key and its value (an ASCII space after each comma and colon), and
with `ensure_ascii=True` (the default) escapes every character outside
`0x20..0x7e`. -/

/-- Opening brace character (written numerically). -/
def lbChar : Char := Char.ofNat 123

/-- Closing brace character (written numerically). -/
def rbChar : Char := Char.ofNat 125

/-- Four lowercase hex digits of `n < 0x10000`, most significant first. -/
def hex4 (n : Nat) : List Char :=
  (List.range 4).map fun i => hexDigitChar ((n >>> (4 * (3 - i))) &&& 15)

/-- `json.dumps` escaping of a single character (`ensure_ascii=True`). -/
def jsonEscapeChar (c : Char) : List Char :=
  let n := c.toNat
  if n = 34 then ['\\', '"']
  else if n = 92 then ['\\', '\\']
  else if n = 10 then ['\\', 'n']
  else if n = 13 then ['\\', 'r']
  else if n = 9 then ['\\', 't']
  else if n = 8 then ['\\', 'b']
  else if n = 12 then ['\\', 'f']
  else if n < 32 || 126 < n then
    if n < 65536 then '\\' :: 'u' :: hex4 n
    else
      let m := n - 65536
      ('\\' :: 'u' :: hex4 (55296 + (m >>> 10))) ++
      ('\\' :: 'u' :: hex4 (56320 + (m &&& 1023)))
  else [c]

/-- A JSON string literal: quoted, escaped. -/
def jsonQuoteChars (s : String) : List Char :=
  '"' :: (s.data.foldr (fun c acc => jsonEscapeChar c ++ acc) []) ++ ['"']

/-- One tree entry value `{"id": "<id>", "type": "blob"}` (keys sorted:
`id` before `type`; default separators). -/
def dumpsEntryChars (blobId : String) : List Char :=
  lbChar :: jsonQuoteChars "id" ++ (": ".data) ++ jsonQuoteChars blobId ++
  (", ".data) ++ jsonQuoteChars "type" ++ (": ".data) ++
  jsonQuoteChars "blob" ++ [rbChar]

/-- `json.dumps({"entries": {path: {"type": "blob", "id": id}}}, sort_keys=True)`
as characters. -/
def dumpsTreeChars (entries : List (String × String)) : List Char :=
  let items := (sortByKey entries).map fun pi =>
    jsonQuoteChars pi.1 ++ (": ".data) ++ dumpsEntryChars pi.2
  lbChar :: jsonQuoteChars "entries" ++ (": ".data) ++ [lbChar] ++
  List.intercalate (", ".data) items ++ [rbChar, rbChar]

/-- `json.dumps(tree, sort_keys=True)` for a tree object. -/
def dumpsTree (entries : List (String × String)) : String :=
  String.mk (dumpsTreeChars entries)

/-! ## Association lists with Python-dict write semantics -/

/-- `d[k] = v`: overwrite in place if the key exists, else append. -/
def setKey (k : String) (v : α) : List (String × α) → List (String × α)
  | [] => [(k, v)]
  | q :: qs => if q.1 = k then (k, v) :: qs else q :: setKey k v qs

/-- `d.get(k)`. -/
def getKey (k : String) : List (String × α) → Option α
  | [] => none
  | q :: qs => if q.1 = k then some q.2 else getKey k qs

/-- `del d[k]` (no-op when absent, callers guard with membership). -/
def eraseKey (k : String) : List (String × α) → List (String × α)
  | [] => []
  | q :: qs => if q.1 = k then qs else q :: eraseKey k qs

/-! ## Server object model (`apps/backend/svcs.py`)

A repository directory is modelled by its mutable contents: `meta.json`,
`refs/main` (`none` = file absent, `some c` = file with contents `c`), and the
three object stores keyed by identifier. A working directory is the flat list
of its regular files (relative path as produced by the `os.walk` traversal,
file bytes). The advisory `repo.lock` serialises writers and is not part of
the state. -/

/-- `meta.json` contents. -/
structure MetaData where
  name : String
  created_at : String
deriving DecidableEq

/-- A snapshot object (`objects/snapshots/<sid>.json`). -/
structure Snapshot where
  snapshot_id : String
  root_tree : String
  parent : Option String
  message : String
  timestamp : String
deriving DecidableEq

/-- On-disk state of one repository. -/
structure RepoState where
  meta : Option MetaData
  refMain : Option String
  blobs : List (String × List Nat)
  trees : List (String × List (String × String))
  snapshots : List (String × Snapshot)
deriving DecidableEq

/-- A working directory: relative file path ↦ file bytes. -/
abbrev WorkDir := List (String × List Nat)

/-- The hard-coded timestamp the server writes. -/
def timestampConst : String := "2025-12-19T09:00:00Z"

/-- `init_repo`: create the directory (`exist_ok=True`, so an existing
repository is not an error), overwrite `meta.json`, overwrite `refs/main`
with the empty string. `prev` is the prior state of the directory when it
already exists; objects are not touched. -/
def initRepo (name : String) (prev : Option RepoState) : RepoState :=
  { meta := some ⟨name, timestampConst⟩
    refMain := some ""
    blobs := (prev.map (·.blobs)).getD []
    trees := (prev.map (·.trees)).getD []
    snapshots := (prev.map (·.snapshots)).getD [] }

/-- `_hash_content`. -/
def hashContent (content : List Nat) : String := sha256hex content

/-- The tree entries `_build_tree` records: for each file, `relative/path ↦
{type: "blob", id: sha256(bytes)}` (a later duplicate path overwrites an
earlier one, as in a dict). -/
def buildTreeEntries (w : WorkDir) : List (String × String) :=
  w.foldl (fun acc pc => setKey pc.1 (hashContent pc.2) acc) []

/-- `_store_tree`'s identifier: sha256 of
`json.dumps(tree, sort_keys=True).encode()`. -/
def storeTreeId (entries : List (String × String)) : String :=
  sha256hexS (dumpsTree entries)

/-- `snapshot_id = f"s_{int(sha256((tree_id + parent).encode()).hexdigest()[:8], 16)}"`. -/
def snapshotIdOf (treeId parent : String) : String :=
  "s_" ++ pyIntRepr (first8hexVal (sha256hexS (treeId ++ parent)))

/-- One primitive disk write performed by `save_snapshot`, in program order. -/
inductive WriteOp where
  | putBlob (id : String) (content : List Nat)
  | putTree (id : String) (entries : List (String × String))
  | putSnapshot (id : String) (snap : Snapshot)
  | putRef (id : String)
deriving DecidableEq

/-- Is the op an object-store write (not the ref update)? -/
def WriteOp.isObjectWrite : WriteOp → Bool
  | .putRef _ => false
  | _ => true

/-- Write a blob only when its id is not already present
(`if not os.path.exists(blob_path)`). -/
def putBlobStore (bs : List (String × List Nat)) (id : String)
    (c : List Nat) : List (String × List Nat) :=
  if (getKey id bs).isSome then bs else bs ++ [(id, c)]

/-- Apply one write to the repository state. A blob write is skipped when the
id already exists; tree and snapshot files are opened with `"w"` and
overwrite. -/
def applyOp (s : RepoState) : WriteOp → RepoState
  | .putBlob id c => { s with blobs := putBlobStore s.blobs id c }
  | .putTree id e => { s with trees := setKey id e s.trees }
  | .putSnapshot id sn => { s with snapshots := setKey id sn s.snapshots }
  | .putRef id => { s with refMain := some id }

/-- The parent string `save_snapshot` reads: `refs/main` stripped, or the
empty string when the file does not exist. -/
def parentOf (s : RepoState) : String :=
  match s.refMain with
  | none => ""
  | some c => pyStrip c

/-- `save_snapshot`'s writes, in program order, together with the returned
snapshot id: all blob writes (walk order), the tree, the snapshot, and last
the ref update. -/
def saveSnapshotOps (s : RepoState) (w : WorkDir) (msg : String) :
    List WriteOp × String :=
  let parent := parentOf s
  let entries := buildTreeEntries w
  let tid := storeTreeId entries
  let sid := snapshotIdOf tid parent
  let snap : Snapshot :=
    ⟨sid, tid, if parent = "" then none else some parent, msg, timestampConst⟩
  (w.map (fun pc => WriteOp.putBlob (hashContent pc.2) pc.2) ++
     [WriteOp.putTree tid entries, WriteOp.putSnapshot sid snap,
      WriteOp.putRef sid], sid)

/-- `save_snapshot(repo, message, work_dir)`: apply all writes, return the
new state and the snapshot id. -/
def saveSnapshot (s : RepoState) (w : WorkDir) (msg : String) :
    RepoState × String :=
  let p := saveSnapshotOps s w msg
  (p.1.foldl applyOp s, p.2)

/-- The `while current_id:` loop of `get_history`, bounded by `fuel`
(the Python loop has no bound and diverges on a parent cycle; every theorem
below supplies enough fuel and shows the result is fuel-independent). -/
def getHistoryFrom (s : RepoState) : Nat → Option String → List Snapshot
  | 0, _ => []
  | _ + 1, none => []
  | fuel + 1, some cur =>
      if cur = "" then []
      else
        match getKey cur s.snapshots with
        | none => []
        | some sn => sn :: getHistoryFrom s fuel sn.parent

/-- `get_history(repo)`. -/
def getHistory (fuel : Nat) (s : RepoState) : List Snapshot :=
  match s.refMain with
  | none => []
  | some c => getHistoryFrom s fuel (some (pyStrip c))

/-- A sequence of `save_snapshot` calls; returns the final state and the
produced snapshot ids, newest first. -/
def runSaves : RepoState → List (WorkDir × String) → RepoState × List String
  | s, [] => (s, [])
  | s, (w, m) :: rest =>
      let p := saveSnapshot s w m
      let q := runSaves p.1 rest
      (q.1, q.2 ++ [p.2])

/-! ## Client replica (`apps/cli/git.py`) -/

/-- The client staging index: relative path ↦ blob id (`.anchor/index`). -/
abbrev ClientIndex := List (String × String)

/-- `_hash_file`: sha256 of the file bytes. -/
def clientHashFile (content : List Nat) : String := sha256hex content

/-- The index after `add`-ing every file of a working directory: each file is
hashed and recorded (`index[rel_path] = file_hash`). -/
def clientIndexOf (w : WorkDir) : ClientIndex :=
  w.foldl (fun acc pc => setKey pc.1 (clientHashFile pc.2) acc) []

/-- `_build_tree_object(index)` keeps the same flat entries
(`{"entries": {path: {"type": "blob", "id": hash}}}`); as an association
list it is the index itself. -/
def clientBuildTreeObject (index : ClientIndex) : List (String × String) :=
  index

/-- `_store_object(root, "trees", tree)`: hash of
`json.dumps(content, sort_keys=True)`. -/
def clientStoreObjectId (entries : List (String × String)) : String :=
  sha256hexS (dumpsTree entries)

/-- The snapshot id `commit` computes:
`parent_str = parent or ""`, then
`"s_" + str(int(sha256(tree_id + parent_str).hexdigest()[:8], 16))`. -/
def clientSnapshotId (treeId : String) (parent : Option String) : String :=
  let parentStr := parent.getD ""
  "s_" ++ pyIntRepr (first8hexVal (sha256hexS (treeId ++ parentStr)))

/-- The snapshot id `commit` produces from an index and parent. -/
def clientCommitId (index : ClientIndex) (parent : Option String) : String :=
  clientSnapshotId (clientStoreObjectId (clientBuildTreeObject index)) parent

/-! ## Refresh-token manager (`apps/backend/token_manager.py`)

The persistent map keyed by `sha256(token)`. Times (`created_at`,
`expires_at`, "now") are seconds as `Nat`; the source stores ISO strings and
compares them chronologically. Randomness (`secrets.token_urlsafe(32)`) is
a parameter: each operation that mints a token takes the fresh plaintext as
an argument. -/

/-- One refresh-token record. -/
structure TokenRecord where
  username : String
  fingerprint : Option String
  created_at : Nat
  expires_at : Nat
  used : Bool
  rotated_to : Option String
deriving DecidableEq

/-- The store behind `self.tokens`. -/
abbrev TokenStore := List (String × TokenRecord)

/-- Python truthiness of an optional string (`None` and `""` are falsy). -/
def truthy : Option String → Bool
  | none => false
  | some s => !(s = "")

/-- Seconds in `expires_days` days. -/
def daysToSecs (d : Nat) : Nat := d * 86400

/-- `generate_refresh_token`: store a fresh record under `sha256(token)` and
hand the plaintext back (the caller supplies the random `token`). -/
def generateRefreshToken (ts : TokenStore) (username : String)
    (fingerprint : Option String) (expiresDays : Nat) (token : String)
    (now : Nat) : TokenStore :=
  setKey (sha256hexS token)
    ⟨username, fingerprint, now, now + daysToSecs expiresDays, false, none⟩ ts

/-- `_invalidate_token_family`, fuel-bounded: delete the record at
`tokenHash`, then walk a snapshot of the store and recurse on every record
whose `rotated_to` equals `tokenHash`. The fuel mirrors the recursion depth;
`invalidateFamily` supplies the store size plus one, which bounds the chain
the source can follow. Note the source follows the chain *backwards only*:
nothing ever follows the deleted record's own `rotated_to` forward. -/
def invalidateFamilyAux : Nat → TokenStore → String → TokenStore
  | 0, ts, _ => ts
  | fuel + 1, ts, tokenHash =>
      let ts1 := eraseKey tokenHash ts
      ts1.foldl
        (fun acc td =>
          if td.2.rotated_to = some tokenHash then
            invalidateFamilyAux fuel acc td.1
          else acc)
        ts1

/-- `_invalidate_token_family`. -/
def invalidateFamily (ts : TokenStore) (tokenHash : String) : TokenStore :=
  invalidateFamilyAux (ts.length + 1) ts tokenHash

/-- Result of `validate_and_rotate`. -/
inductive RotateResult where
  | ok (username : String) (newToken : String)
  | failed
deriving DecidableEq

/-- `validate_and_rotate(token, fingerprint)`; `newToken` is the fresh random
plaintext minted on success, `now` the current time. Returns the result and
the mutated store. -/
def validateAndRotate (ts : TokenStore) (token : String)
    (fingerprint : Option String) (newToken : String) (now : Nat) :
    RotateResult × TokenStore :=
  let tokenHash := sha256hexS token
  match getKey tokenHash ts with
  | none => (.failed, ts)
  | some data =>
      if data.used then (.failed, invalidateFamily ts tokenHash)
      else if data.expires_at < now then (.failed, eraseKey tokenHash ts)
      else if truthy fingerprint && truthy data.fingerprint &&
              !(data.fingerprint = fingerprint) then
        (.failed, invalidateFamily ts tokenHash)
      else
        let data1 := { data with used := true }
        let ts1 := setKey tokenHash data1 ts
        let newFp := if truthy fingerprint then fingerprint
                     else data.fingerprint
        let ts2 := generateRefreshToken ts1 data.username newFp 7 newToken now
        let newHash := sha256hexS newToken
        let ts3 := setKey tokenHash { data1 with rotated_to := some newHash } ts2
        (.ok data.username newToken, ts3)

/-! ## Device fingerprint (`apps/backend/fingerprint.py`) -/

/-- The request signals the fingerprint reads. `clientHost` is
`request.client.host`, `none` when `request.client` is `None`. -/
structure Request where
  userAgent : Option String
  acceptLanguage : Option String
  acceptEncoding : Option String
  clientHost : Option String
deriving DecidableEq

/-- `request.client.host if request.client else ""`. -/
def clientIp (r : Request) : String := r.clientHost.getD ""

/-- The partial IP: first three dot-octets (IPv4) or first six colon-groups
(IPv6, chosen when the address contains a colon). -/
def partialIp (ip : String) : String :=
  if ip.data.contains ':' then
    String.mk (List.intercalate [':'] ((splitOn ':' ip.data).take 6))
  else
    String.mk (List.intercalate ['.'] ((splitOn '.' ip.data).take 3))

/-- The `components` list `DeviceFingerprint.generate` builds: user agent,
then the partial IP *only when the client IP is nonempty*, then the two
accept headers (missing headers default to `""`). -/
def fingerprintComponents (r : Request) : List String :=
  let base := [r.userAgent.getD ""]
  let withIp := if clientIp r = "" then base else base ++ [partialIp (clientIp r)]
  withIp ++ [r.acceptLanguage.getD "", r.acceptEncoding.getD ""]

/-- `"|".join(components)`. -/
def fingerprintString (r : Request) : String :=
  String.mk (List.intercalate ['|'] ((fingerprintComponents r).map (·.data)))

/-- `DeviceFingerprint.generate(request)`. -/
def generateFingerprint (r : Request) : String :=
  sha256hexS (fingerprintString r)

/-! ## Access tokens and `verify_token` (`apps/backend/dependencies.py`)

PyJWT is an external library; it is idealised as an unforgeable MAC: a token
carries its claims and the key it was signed with, and `jwt.decode` succeeds
exactly when the keys match and the token is not expired. -/

/-- The claims `create_access_token` encodes. -/
structure AccessPayload where
  sub : String
  exp : Nat
  fpt : Option String
  step_up : Bool
  step_up_at : Option Nat
deriving DecidableEq

/-- A signed token: payload plus the signing key (idealised HMAC-SHA256). -/
structure Jwt where
  payload : AccessPayload
  signKey : String
deriving DecidableEq

/-- `ACCESS_TOKEN_EXPIRE_MINUTES = 5`. -/
def accessTokenExpireMinutes : Nat := 5

/-- `create_access_token(data={"sub": sub}, fingerprint, step_up)` with the
default 5-minute expiry. -/
def createAccessToken (secret sub fingerprint : String) (stepUp : Bool)
    (now : Nat) : Jwt :=
  ⟨⟨sub, now + accessTokenExpireMinutes * 60, some fingerprint, stepUp,
    if stepUp then some now else none⟩, secret⟩

/-- The 401 errors `verify_token` raises. -/
inductive AuthError where
  | expiredToken
  | invalidToken
  | fingerprintMismatch
deriving DecidableEq

/-- HTTP status of each auth error (all `HTTP_401_UNAUTHORIZED`). -/
def AuthError.status : AuthError → Nat
  | _ => 401

/-- `jwt.decode(token, SECRET_KEY, algorithms=[ALGORITHM])`: signature check,
then expiry check. -/
def jwtDecode (secret : String) (t : Jwt) (now : Nat) :
    Except AuthError AccessPayload :=
  if t.signKey ≠ secret then .error .invalidToken
  else if t.payload.exp ≤ now then .error .expiredToken
  else .ok t.payload

/-- `verify_token(token, request)`: decode; then, only when a request is
supplied and the payload carries `fpt`, compare against the request's
computed fingerprint and fail with 401 on mismatch. -/
def verifyToken (secret : String) (t : Jwt) (request : Option Request)
    (now : Nat) : Except AuthError AccessPayload :=
  match jwtDecode secret t now with
  | .error e => .error e
  | .ok payload =>
      match request, payload.fpt with
      | some r, some fpt =>
          if fpt ≠ generateFingerprint r then .error .fingerprintMismatch
          else .ok payload
      | _, _ => .ok payload

/-! ## Authorization (`apps/backend/authorization.py`) -/

/-- The closed permission set. -/
inductive Permission where
  | readRepo | writeRepo | deleteRepo | createRepo | adminRepo
  | readProfile | writeProfile | manageKeys | exportKeys
  | adminAll
  | createSnapshot | readSnapshot | restoreSnapshot
deriving DecidableEq, Fintype

/-- User roles. -/
inductive Role where
  | admin | user | guest
deriving DecidableEq

/-- `ROLE_PERMISSIONS` (`.get(role, [])` is total over `Role`). -/
def rolePermissions : Role → List Permission
  | .admin =>
      [.adminAll, .readRepo, .writeRepo, .deleteRepo, .createRepo, .adminRepo,
       .readProfile, .writeProfile, .manageKeys, .exportKeys,
       .createSnapshot, .readSnapshot, .restoreSnapshot]
  | .user =>
      [.readRepo, .writeRepo, .createRepo, .readProfile, .writeProfile,
       .manageKeys, .createSnapshot, .readSnapshot]
  | .guest => [.readRepo, .readProfile]

/-- `get_user_role`: the configured admin username maps to `ADMIN`, every
other username to `GUEST`. -/
def getUserRole (adminUsername username : String) : Role :=
  if username = adminUsername then .admin else .guest

/-- `has_permission(user, permission)`; `sub` is `user.get("sub")` and an
absent or empty subject is rejected (`if not username`). -/
def hasPermission (adminUsername : String) (sub : Option String)
    (p : Permission) : Bool :=
  match sub with
  | none => false
  | some u =>
      if u = "" then false
      else
        let perms := rolePermissions (getUserRole adminUsername u)
        if Permission.adminAll ∈ perms then true
        else decide (p ∈ perms)

/-! ## Derived definitions used by the correctness statements -/

/-- The blob store after the `_build_tree` walk wrote the blobs of `w`. -/
def blobsAfter (bs : List (String × List Nat)) (w : WorkDir) :
    List (String × List Nat) :=
  w.foldl (fun acc pc => putBlobStore acc (hashContent pc.2) pc.2) bs

/-- A string that `strip` leaves alone and that is nonempty — the shape of
every stored snapshot id. -/
def SidLike (i : String) : Prop := pyStrip i = i ∧ i ≠ ""

/-- The parent chain rooted at the ids in the list (newest first) is intact:
each id resolves to a stored snapshot carrying that id, whose `root_tree`
exists and whose `parent` is the next id (or `null` at the end). -/
def ChainOK (s : RepoState) : List String → Prop
  | [] => True
  | i :: rest =>
      SidLike i ∧
      (∃ sn, getKey i s.snapshots = some sn ∧ sn.snapshot_id = i ∧
        sn.parent = rest.head? ∧ (getKey sn.root_tree s.trees).isSome) ∧
      ChainOK s rest

/-- The unconditional well-formedness of `refs/main`: it exists, is already
stripped, and — unless empty — resolves to a snapshot whose `root_tree`
exists and whose `parent` is `null` or an existing snapshot. -/
def RefOK (s : RepoState) : Prop :=
  ∃ r, s.refMain = some r ∧ pyStrip r = r ∧
    (r = "" ∨ ∃ sn, getKey r s.snapshots = some sn ∧
       (getKey sn.root_tree s.trees).isSome ∧
       (sn.parent = none ∨
         ∃ p, sn.parent = some p ∧ (getKey p s.snapshots).isSome))

/-! ## Concrete fixtures (scenario S1 and friends) -/

/-- The S1 working directory: `hello.txt` containing `"hi\n"`. -/
def wd1 : WorkDir := [("hello.txt", strBytes "hi\n")]

/-- A second working directory (`hello.txt` modified). -/
def wd2 : WorkDir := [("hello.txt", strBytes "hello\n")]

/-- A freshly initialised repository. -/
def s0demo : RepoState := initRepo "demo" none

/-- `json.dumps(tree, sort_keys=True)` for the S1 tree — note the ASCII
space after every colon and comma (Python's default separators). -/
def treeJsonSpaced : String :=
  "\x7b\"entries\": \x7b\"hello.txt\": \x7b\"id\": \"98ea6e4f216f2fb4b69fff9b3a44842c38686ca685f3f55dc48c5d3fb1107be4\", \"type\": \"blob\"\x7d\x7d\x7d"

/-- The space-free canonical encoding of the same tree, as the spec's
canonical-JSON rule would produce. -/
def treeJsonCompact : String :=
  "\x7b\"entries\":\x7b\"hello.txt\":\x7b\"id\":\"98ea6e4f216f2fb4b69fff9b3a44842c38686ca685f3f55dc48c5d3fb1107be4\",\"type\":\"blob\"\x7d\x7d\x7d"

/-- Refresh-token store after issuing `R1` to alice at time 0. -/
def tsIssued : TokenStore := generateRefreshToken [] "alice" none 7 "R1" 0

/-- Store after rotating `R1` to `R2` at time 1. -/
def tsRotated : TokenStore := (validateAndRotate tsIssued "R1" none "R2" 1).2

/-- Store after the attacker replays the retired `R1` at time 2. -/
def tsAfterReplay : TokenStore :=
  (validateAndRotate tsRotated "R1" none "R1x" 2).2

/-- A request with no peer address (`request.client is None`) and concrete
header values. -/
def reqNoClient : Request := ⟨some "a", some "b", some "c", none⟩

/-- A working directory engineered (by brute-force search over file names)
so that saving it *after* the S1 save collides in the 32-bit snapshot id
space: one file named `0000000042daf093` containing `"x"`. Saving it with
parent `s_181379010` again yields the id `s_181379010`. -/
def wdCollide : WorkDir := [("0000000042daf093", strBytes "x")]

/-! ## Association-list lemmas -/

theorem getKey_setKey_self (k : String) (v : α) (l : List (String × α)) :
    getKey k (setKey k v l) = some v := by
  induction l with
  | nil => simp [setKey, getKey]
  | cons q qs ih =>
      by_cases h : q.1 = k
      · simp [setKey, getKey, h]
      · simp [setKey, getKey, h, ih]

theorem getKey_setKey_ne (k k' : String) (v : α) (l : List (String × α))
    (h : k ≠ k') : getKey k (setKey k' v l) = getKey k l := by
  have h' : ¬ k' = k := fun e => h e.symm
  induction l with
  | nil => simp [setKey, getKey, h']
  | cons q qs ih =>
      by_cases hq : q.1 = k'
      · have hqk : ¬ q.1 = k := by rw [hq]; exact h'
        simp [setKey, getKey, hq, hqk, h']
      · simp [setKey, getKey, hq, ih]

theorem isSome_getKey_setKey (k k' : String) (v : α) (l : List (String × α))
    (h : (getKey k l).isSome) : (getKey k (setKey k' v l)).isSome := by
  by_cases e : k = k'
  · subst e; rw [getKey_setKey_self]; rfl
  · rwa [getKey_setKey_ne _ _ _ _ e]

theorem mem_setKey (pr : String × α) (k : String) (v : α)
    (l : List (String × α)) (h : pr ∈ setKey k v l) :
    pr = (k, v) ∨ pr ∈ l := by
  induction l with
  | nil => simpa [setKey] using h
  | cons q qs ih =>
      by_cases hq : q.1 = k
      · simp only [setKey, hq, if_true] at h
        rcases List.mem_cons.mp h with h1 | h1
        · exact Or.inl h1
        · exact Or.inr (List.mem_cons_of_mem _ h1)
      · simp only [setKey, hq, if_false] at h
        rcases List.mem_cons.mp h with h1 | h1
        · exact Or.inr (h1 ▸ List.mem_cons_self _ _)
        · rcases ih h1 with h2 | h2
          · exact Or.inl h2
          · exact Or.inr (List.mem_cons_of_mem _ h2)

theorem getKey_append (k : String) (l₁ l₂ : List (String × α)) :
    getKey k (l₁ ++ l₂) =
      match getKey k l₁ with
      | some v => some v
      | none => getKey k l₂ := by
  induction l₁ with
  | nil => simp [getKey]
  | cons q qs ih =>
      by_cases hq : q.1 = k
      · simp [getKey, hq]
      · simp [getKey, hq, ih]

theorem isSome_getKey_putBlobStore_self (bs : List (String × List Nat))
    (k : String) (c : List Nat) :
    (getKey k (putBlobStore bs k c)).isSome := by
  unfold putBlobStore
  by_cases h : (getKey k bs).isSome
  · simp [h]
  · have hn : getKey k bs = none := Option.not_isSome_iff_eq_none.mp h
    simp [h, getKey_append, hn, getKey]

theorem isSome_getKey_putBlobStore_mono (bs : List (String × List Nat))
    (k id : String) (c : List Nat) (h : (getKey k bs).isSome) :
    (getKey k (putBlobStore bs id c)).isSome := by
  unfold putBlobStore
  by_cases he : (getKey id bs).isSome
  · simpa [he]
  · rcases Option.isSome_iff_exists.mp h with ⟨v, hv⟩
    simp [he, getKey_append, hv]

theorem blobsAfter_cons (bs : List (String × List Nat)) (pc : String × List Nat)
    (w : WorkDir) :
    blobsAfter bs (pc :: w) =
      blobsAfter (putBlobStore bs (hashContent pc.2) pc.2) w := rfl

theorem isSome_getKey_blobsAfter_mono (k : String) :
    ∀ (w : WorkDir) (bs : List (String × List Nat)),
      (getKey k bs).isSome → (getKey k (blobsAfter bs w)).isSome := by
  intro w
  induction w with
  | nil => intro bs h; simpa [blobsAfter]
  | cons pc rest ih =>
      intro bs h
      rw [blobsAfter_cons]
      exact ih _ (isSome_getKey_putBlobStore_mono _ _ _ _ h)

theorem blob_present_of_mem :
    ∀ (w : WorkDir) (bs : List (String × List Nat)) (pc : String × List Nat),
      pc ∈ w → (getKey (hashContent pc.2) (blobsAfter bs w)).isSome := by
  intro w
  induction w with
  | nil => intro bs pc h; cases h
  | cons q rest ih =>
      intro bs pc h
      rcases List.mem_cons.mp h with h1 | h1
      · subst h1
        rw [blobsAfter_cons]
        exact isSome_getKey_blobsAfter_mono _ _ _
          (isSome_getKey_putBlobStore_self _ _ _)
      · rw [blobsAfter_cons]
        exact ih _ _ h1

theorem mem_entriesFold :
    ∀ (w : WorkDir) (acc : List (String × String)) (pr : String × String),
      pr ∈ w.foldl (fun acc pc => setKey pc.1 (hashContent pc.2) acc) acc →
      pr ∈ acc ∨ ∃ pc, pc ∈ w ∧ pr = (pc.1, hashContent pc.2) := by
  intro w
  induction w with
  | nil => intro acc pr h; exact Or.inl h
  | cons q rest ih =>
      intro acc pr h
      rcases ih _ _ h with h1 | ⟨pc, hm, he⟩
      · rcases mem_setKey _ _ _ _ h1 with h2 | h2
        · exact Or.inr ⟨q, List.mem_cons_self _ _, h2⟩
        · exact Or.inl h2
      · exact Or.inr ⟨pc, List.mem_cons_of_mem _ hm, he⟩

theorem mem_buildTreeEntries (w : WorkDir) (pr : String × String)
    (h : pr ∈ buildTreeEntries w) :
    ∃ pc, pc ∈ w ∧ pr = (pc.1, hashContent pc.2) := by
  rcases mem_entriesFold w [] pr h with h1 | h1
  · cases h1
  · exact h1

/-! ## Strip-neutrality of snapshot ids -/

theorem dropWhile_noSpace (l : List Char)
    (h : ∀ c ∈ l, isPySpace c = false) :
    l.dropWhile isPySpace = l := by
  cases l with
  | nil => rfl
  | cons a l' => simp [List.dropWhile_cons, h a (List.mem_cons_self _ _)]

theorem pyStrip_mk_noSpace (cs : List Char)
    (h : ∀ c ∈ cs, isPySpace c = false) :
    pyStrip (String.mk cs) = String.mk cs := by
  unfold pyStrip
  show String.mk (((cs.dropWhile isPySpace).reverse.dropWhile
    isPySpace).reverse) = _
  rw [dropWhile_noSpace cs h,
      dropWhile_noSpace _ (fun c hc => h c (List.mem_reverse.mp hc)),
      List.reverse_reverse]

theorem decChars_mem :
    ∀ (fuel n : Nat) (c : Char), c ∈ decChars fuel n →
      ∃ d, d < 10 ∧ c = hexDigitChar d := by
  intro fuel
  induction fuel with
  | zero => intro n c h; cases h
  | succ f ih =>
      intro n c h
      unfold decChars at h
      by_cases hn : n < 10
      · simp only [hn, if_true, List.mem_singleton] at h
        exact ⟨n, hn, h⟩
      · simp only [hn, if_false, List.mem_append, List.mem_singleton] at h
        rcases h with h1 | h1
        · exact ih _ _ h1
        · exact ⟨n % 10, Nat.mod_lt _ (by norm_num), h1⟩

theorem hexDigitChar_not_space (d : Nat) (h : d < 10) :
    isPySpace (hexDigitChar d) = false := by
  interval_cases d <;> decide

theorem snapshotIdOf_data (t p : String) :
    (snapshotIdOf t p).data =
      's' :: '_' ::
        decChars (first8hexVal (sha256hexS (t ++ p)) + 1)
          (first8hexVal (sha256hexS (t ++ p))) := by
  show (("s_" : String) ++ pyIntRepr _).data = _
  rw [String.data_append]
  rfl

theorem sidLike_snapshotIdOf (t p : String) : SidLike (snapshotIdOf t p) := by
  have hno : ∀ c ∈ (snapshotIdOf t p).data, isPySpace c = false := by
    intro c hc
    rw [snapshotIdOf_data] at hc
    rcases List.mem_cons.mp hc with h1 | h1
    · subst h1; decide
    · rcases List.mem_cons.mp h1 with h2 | h2
      · subst h2; decide
      · rcases decChars_mem _ _ _ h2 with ⟨d, hd, he⟩
        subst he; exact hexDigitChar_not_space d hd
  constructor
  · have := pyStrip_mk_noSpace (snapshotIdOf t p).data hno
    simpa using this
  · intro h
    have : (snapshotIdOf t p).data = [] := by rw [h]
    rw [snapshotIdOf_data] at this
    cases this

/-! ## Characterisation of `save_snapshot` as a state transformer -/

theorem foldl_blobOps (w : WorkDir) :
    ∀ s : RepoState,
      (w.map (fun pc => WriteOp.putBlob (hashContent pc.2) pc.2)).foldl
          applyOp s =
        { s with blobs := blobsAfter s.blobs w } := by
  induction w with
  | nil => intro s; rfl
  | cons pc rest ih =>
      intro s
      simp only [List.map_cons, List.foldl_cons]
      rw [ih]
      rfl

theorem saveSnapshot_eq (s : RepoState) (w : WorkDir) (m : String) :
    saveSnapshot s w m =
      ({ s with
          blobs := blobsAfter s.blobs w
          trees := setKey (storeTreeId (buildTreeEntries w))
                     (buildTreeEntries w) s.trees
          snapshots := setKey
            (snapshotIdOf (storeTreeId (buildTreeEntries w)) (parentOf s))
            ⟨snapshotIdOf (storeTreeId (buildTreeEntries w)) (parentOf s),
             storeTreeId (buildTreeEntries w),
             if parentOf s = "" then none else some (parentOf s),
             m, timestampConst⟩
            s.snapshots
          refMain := some
            (snapshotIdOf (storeTreeId (buildTreeEntries w)) (parentOf s)) },
       snapshotIdOf (storeTreeId (buildTreeEntries w)) (parentOf s)) := by
  unfold saveSnapshot saveSnapshotOps
  simp only [List.foldl_append, foldl_blobOps, List.foldl_cons, List.foldl_nil]
  rfl

theorem foldl_objectWrites_refMain :
    ∀ (ops : List WriteOp) (s : RepoState),
      (∀ op ∈ ops, op.isObjectWrite = true) →
      (ops.foldl applyOp s).refMain = s.refMain := by
  intro ops
  induction ops with
  | nil => intro s _; rfl
  | cons op rest ih =>
      intro s h
      rw [List.foldl_cons, ih _ (fun o ho => h o (List.mem_cons_of_mem _ ho))]
      cases op with
      | putBlob id c => rfl
      | putTree id e => rfl
      | putSnapshot id sn => rfl
      | putRef id =>
          have := h _ (List.mem_cons_self _ _)
          simp [WriteOp.isObjectWrite] at this

theorem saveSnapshotOps_decomp (s : RepoState) (w : WorkDir) (m : String) :
    (saveSnapshotOps s w m).1 =
      (w.map (fun pc => WriteOp.putBlob (hashContent pc.2) pc.2) ++
        [WriteOp.putTree (storeTreeId (buildTreeEntries w))
           (buildTreeEntries w),
         WriteOp.putSnapshot (saveSnapshotOps s w m).2
           ⟨(saveSnapshotOps s w m).2, storeTreeId (buildTreeEntries w),
            if parentOf s = "" then none else some (parentOf s),
            m, timestampConst⟩]) ++
      [WriteOp.putRef (saveSnapshotOps s w m).2] := by
  unfold saveSnapshotOps
  simp [List.append_assoc]

/-! ## Reachable-state invariants -/

theorem chainOK_nil (s : RepoState) : ChainOK s [] := True.intro

theorem chainOK_cons (s : RepoState) (i : String) (rest : List String) :
    ChainOK s (i :: rest) ↔
      (SidLike i ∧
        (∃ sn, getKey i s.snapshots = some sn ∧ sn.snapshot_id = i ∧
          sn.parent = rest.head? ∧ (getKey sn.root_tree s.trees).isSome) ∧
        ChainOK s rest) := Iff.rfl

theorem runSaves_cons (s : RepoState) (w : WorkDir) (m : String)
    (rest : List (WorkDir × String)) :
    runSaves s ((w, m) :: rest) =
      ((runSaves (saveSnapshot s w m).1 rest).1,
       (runSaves (saveSnapshot s w m).1 rest).2 ++
         [(saveSnapshot s w m).2]) := rfl

theorem chainOK_update :
    ∀ (c : List String) (s s' : RepoState),
      (∀ i ∈ c, getKey i s'.snapshots = getKey i s.snapshots) →
      (∀ t, (getKey t s.trees).isSome = true →
          (getKey t s'.trees).isSome = true) →
      ChainOK s c → ChainOK s' c := by
  intro c
  induction c with
  | nil => intro s s' _ _ _; exact chainOK_nil s'
  | cons i rest ih =>
      intro s s' hsnap htree hc
      obtain ⟨h1, ⟨sn, hget, hid, hpar, ht⟩, hrest⟩ :=
        (chainOK_cons s i rest).mp hc
      exact (chainOK_cons s' i rest).mpr
        ⟨h1, ⟨sn, (hsnap i (List.mem_cons_self _ _)).trans hget, hid, hpar,
          htree _ ht⟩,
         ih s s' (fun j hj => hsnap j (List.mem_cons_of_mem _ hj)) htree hrest⟩

theorem parentOf_head (s : RepoState) (c : List String)
    (hc : ChainOK s c) (href : s.refMain = some (c.headD "")) :
    parentOf s = c.headD "" := by
  cases c with
  | nil => simp [parentOf, href]; rfl
  | cons i rest =>
      have hsid : SidLike i := ((chainOK_cons s i rest).mp hc).1
      simp only [parentOf, href, List.headD_cons]
      exact hsid.1

theorem chainOK_step (s : RepoState) (w : WorkDir) (m : String)
    (c : List String) (hc : ChainOK s c)
    (href : s.refMain = some (c.headD ""))
    (hfresh : (saveSnapshot s w m).2 ∉ c) :
    ChainOK (saveSnapshot s w m).1 ((saveSnapshot s w m).2 :: c) := by
  have hpar := parentOf_head s c hc href
  rw [saveSnapshot_eq] at hfresh ⊢
  refine (chainOK_cons _ _ _).mpr
    ⟨sidLike_snapshotIdOf _ _,
     ⟨⟨snapshotIdOf (storeTreeId (buildTreeEntries w)) (parentOf s),
       storeTreeId (buildTreeEntries w),
       if parentOf s = "" then none else some (parentOf s), m,
       timestampConst⟩, getKey_setKey_self _ _ _, rfl, ?_, ?_⟩, ?_⟩
  · show (if parentOf s = "" then none else some (parentOf s)) = c.head?
    rw [hpar]
    cases c with
    | nil => rfl
    | cons i rest =>
        have hsid : SidLike i := ((chainOK_cons s i rest).mp hc).1
        simp [List.headD_cons, hsid.2]
  · show (getKey (storeTreeId (buildTreeEntries w))
        (setKey (storeTreeId (buildTreeEntries w)) (buildTreeEntries w)
          s.trees)).isSome
    rw [getKey_setKey_self]; rfl
  · refine chainOK_update c s _ ?_ ?_ hc
    · intro i hi
      show getKey i (setKey (snapshotIdOf (storeTreeId (buildTreeEntries w))
        (parentOf s)) _ s.snapshots) = getKey i s.snapshots
      exact getKey_setKey_ne _ _ _ _
        (fun he => hfresh (he ▸ hi))
    · intro t ht
      exact isSome_getKey_setKey _ _ _ _ ht

theorem runSaves_chain :
    ∀ (saves : List (WorkDir × String)) (s : RepoState) (c : List String),
      ChainOK s c → s.refMain = some (c.headD "") →
      ((runSaves s saves).2 ++ c).Nodup →
      ChainOK (runSaves s saves).1 ((runSaves s saves).2 ++ c) ∧
      (runSaves s saves).1.refMain =
        some (((runSaves s saves).2 ++ c).headD "") := by
  intro saves
  induction saves with
  | nil => intro s c hc href _; exact ⟨hc, href⟩
  | cons wm rest ih =>
      intro s c hc href hnd
      obtain ⟨w, m⟩ := wm
      rw [runSaves_cons] at hnd ⊢
      rw [List.append_assoc] at hnd ⊢
      have hnd' : ((runSaves (saveSnapshot s w m).1 rest).2 ++
          ((saveSnapshot s w m).2 :: c)).Nodup := hnd
      have hcons : ((saveSnapshot s w m).2 :: c).Nodup :=
        hnd'.of_append_right
      have hfresh : (saveSnapshot s w m).2 ∉ c :=
        (List.nodup_cons.mp hcons).1
      have hstep := chainOK_step s w m c hc href hfresh
      have hrefs : (saveSnapshot s w m).1.refMain =
          some (((saveSnapshot s w m).2 :: c).headD "") := by
        rw [saveSnapshot_eq]; rfl
      exact ih (saveSnapshot s w m).1 ((saveSnapshot s w m).2 :: c)
        hstep hrefs hnd'

theorem getHistoryFrom_chain :
    ∀ (c : List String) (s : RepoState), ChainOK s c → ∀ extra,
      (getHistoryFrom s (c.length + extra) c.head?).map (·.snapshot_id)
        = c := by
  intro c
  induction c with
  | nil =>
      intro s _ extra
      cases extra <;> rfl
  | cons i rest ih =>
      intro s hc extra
      obtain ⟨⟨_, hne⟩, ⟨sn, hget, hid, hpar, _⟩, hrest⟩ :=
        (chainOK_cons s i rest).mp hc
      have hfuel : (i :: rest).length + extra = (rest.length + extra) + 1 := by
        simp only [List.length_cons]; omega
      rw [hfuel]
      show (getHistoryFrom s ((rest.length + extra) + 1) (some i)).map _ = _
      simp only [getHistoryFrom, hne, if_false, hget, List.map_cons, hid,
        hpar]
      rw [ih s hrest extra]

theorem getHistory_of_chain (s : RepoState) (c : List String)
    (hc : ChainOK s c) (href : s.refMain = some (c.headD "")) (extra : Nat) :
    (getHistory (c.length + extra) s).map (·.snapshot_id) = c := by
  unfold getHistory
  rw [href]
  cases c with
  | nil =>
      show (getHistoryFrom s (([] : List String).length + extra)
        (some (pyStrip ""))).map _ = []
      have h0 : pyStrip "" = "" := rfl
      rw [h0]
      cases extra <;> rfl
  | cons i rest =>
      have hsid : SidLike i := ((chainOK_cons s i rest).mp hc).1
      show (getHistoryFrom s ((i :: rest).length + extra)
        (some (pyStrip i))).map _ = _
      rw [hsid.1]
      exact getHistoryFrom_chain (i :: rest) s hc extra

theorem refOK_init (name : String) (prev : Option RepoState) :
    RefOK (initRepo name prev) :=
  ⟨"", rfl, rfl, Or.inl rfl⟩

theorem refOK_save (s : RepoState) (w : WorkDir) (m : String)
    (h : RefOK s) : RefOK (saveSnapshot s w m).1 := by
  rcases h with ⟨r, hr, hstrip, hcase⟩
  have hpar : parentOf s = r := by simp [parentOf, hr, hstrip]
  rw [saveSnapshot_eq]
  refine ⟨snapshotIdOf (storeTreeId (buildTreeEntries w)) (parentOf s),
    rfl, (sidLike_snapshotIdOf _ _).1, Or.inr ?_⟩
  refine ⟨_, getKey_setKey_self _ _ _, ?_, ?_⟩
  · show (getKey (storeTreeId (buildTreeEntries w))
        (setKey (storeTreeId (buildTreeEntries w)) (buildTreeEntries w)
          s.trees)).isSome
    rw [getKey_setKey_self]; rfl
  · by_cases hre : r = ""
    · left
      show (if parentOf s = "" then none else some (parentOf s)) = none
      rw [hpar, if_pos hre]
    · right
      rcases hcase with hempty | ⟨sn, hget, _, _⟩
      · exact absurd hempty hre
      · refine ⟨r, ?_, ?_⟩
        · show (if parentOf s = "" then none else some (parentOf s)) = some r
          rw [hpar, if_neg hre]
        · show (getKey r (setKey (snapshotIdOf
            (storeTreeId (buildTreeEntries w)) (parentOf s)) _
              s.snapshots)).isSome
          exact isSome_getKey_setKey _ _ _ _ (by rw [hget]; rfl)

theorem refOK_runSaves :
    ∀ (saves : List (WorkDir × String)) (s : RepoState),
      RefOK s → RefOK (runSaves s saves).1 := by
  intro saves
  induction saves with
  | nil => intro s h; exact h
  | cons wm rest ih =>
      intro s h
      obtain ⟨w, m⟩ := wm
      rw [runSaves_cons]
      exact ih _ (refOK_save s w m h)

/-! ## Claim theorems -/

/-- Claim C9: `init_repo` on a name whose repository directory already exists
succeeds (the embedding is total: `os.makedirs(..., exist_ok=True)` does not
raise), rewrites `meta.json`, overwrites `refs/main` with the empty string —
so `get_history` of the re-initialised repository is empty, the pointer to
all previously committed history being erased — while leaving the object
stores untouched. -/
theorem init_repo_existing_overwrites_ref_keeps_objects
    (name : String) (s : RepoState) (fuel : Nat) :
    (initRepo name (some s)).refMain = some "" ∧
    (initRepo name (some s)).meta = some ⟨name, timestampConst⟩ ∧
    (initRepo name (some s)).blobs = s.blobs ∧
    (initRepo name (some s)).trees = s.trees ∧
    (initRepo name (some s)).snapshots = s.snapshots ∧
    getHistory fuel (initRepo name (some s)) = [] := by
  refine ⟨rfl, rfl, rfl, rfl, rfl, ?_⟩
  cases fuel <;> rfl

/-- Claim C4: the snapshot id the client's `commit` computes from an index
holding the same tree contents and the same parent is bit-identical to the
id the server's `save_snapshot` assigns. -/
theorem client_server_snapshot_id_parity (s : RepoState) (w : WorkDir)
    (m : String) :
    clientCommitId (clientIndexOf w)
        (if parentOf s = "" then none else some (parentOf s)) =
      (saveSnapshot s w m).2 := by
  rw [saveSnapshot_eq]
  unfold clientCommitId clientSnapshotId clientStoreObjectId
    clientBuildTreeObject snapshotIdOf storeTreeId
  have hidx : clientIndexOf w = buildTreeEntries w := rfl
  by_cases h : parentOf s = "" <;> simp [h, hidx]

/-- Claim C5: `save_snapshot` performs every object write (all blobs, the
tree, the snapshot) strictly before overwriting `refs/main`: the ref update
is the last write, every earlier write is an object write, stopping after
any proper prefix of the writes (an object-write failure aborts the Python
function by exception) leaves `refs/main` unchanged, and the completed
operation has the snapshot, its root tree, and every blob the tree
references on disk. -/
theorem save_snapshot_writes_objects_before_ref (s : RepoState) (w : WorkDir)
    (m : String) :
    (∀ op ∈ (saveSnapshotOps s w m).1.dropLast, op.isObjectWrite = true) ∧
    (saveSnapshotOps s w m).1.getLast? =
      some (WriteOp.putRef (saveSnapshotOps s w m).2) ∧
    (∀ n < (saveSnapshotOps s w m).1.length,
        (((saveSnapshotOps s w m).1.take n).foldl applyOp s).refMain =
          s.refMain) ∧
    (saveSnapshot s w m).1.refMain = some (saveSnapshotOps s w m).2 ∧
    (∃ sn, getKey (saveSnapshotOps s w m).2 (saveSnapshot s w m).1.snapshots
        = some sn ∧
      (getKey sn.root_tree (saveSnapshot s w m).1.trees).isSome = true ∧
      ∀ pr ∈ buildTreeEntries w,
        (getKey pr.2 (saveSnapshot s w m).1.blobs).isSome = true) := by
  have hdec := saveSnapshotOps_decomp s w m
  have hobj : ∀ op ∈ (saveSnapshotOps s w m).1.dropLast,
      op.isObjectWrite = true := by
    rw [hdec, List.dropLast_concat]
    intro op hop
    rcases List.mem_append.mp hop with h1 | h1
    · rcases List.mem_map.mp h1 with ⟨pc, _, he⟩
      rw [← he]; rfl
    · rcases List.mem_cons.mp h1 with h2 | h2
      · rw [h2]; rfl
      · rcases List.mem_singleton.mp h2 with h3
        rw [h3]; rfl
  refine ⟨hobj, ?_, ?_, ?_, ?_⟩
  · rw [hdec, List.getLast?_concat]
  · intro n hn
    have hlen : n ≤ (saveSnapshotOps s w m).1.dropLast.length := by
      have h0 : (saveSnapshotOps s w m).1.length ≠ 0 := by
        rw [hdec]; simp
      simp only [List.length_dropLast]; omega
    have htake : (saveSnapshotOps s w m).1.take n =
        (saveSnapshotOps s w m).1.dropLast.take n := by
      conv_lhs => rw [hdec]
      rw [hdec, List.dropLast_concat]
      rw [List.take_append_of_le_length]
      rw [hdec, List.dropLast_concat] at hlen
      exact hlen
    rw [htake]
    exact foldl_objectWrites_refMain _ _
      (fun op hop => hobj op (List.mem_of_mem_take hop))
  · rw [saveSnapshot_eq]; rfl
  · rw [saveSnapshot_eq]
    refine ⟨_, getKey_setKey_self _ _ _, ?_, ?_⟩
    · show (getKey (storeTreeId (buildTreeEntries w))
          (setKey (storeTreeId (buildTreeEntries w)) (buildTreeEntries w)
            s.trees)).isSome = true
      rw [getKey_setKey_self]; rfl
    · intro pr hpr
      rcases mem_buildTreeEntries w pr hpr with ⟨pc, hm, he⟩
      have hb := blob_present_of_mem w s.blobs pc hm
      show (getKey pr.2 (blobsAfter s.blobs w)).isSome = true
      rw [he]
      exact hb

/-- Witness for C5: stopping after the first write of the S1 save leaves
`refs/main` untouched. -/
theorem save_snapshot_writes_objects_before_ref_witness :
    1 < (saveSnapshotOps s0demo wd1 "first").1.length ∧
    (((saveSnapshotOps s0demo wd1 "first").1.take 1).foldl applyOp
        s0demo).refMain = s0demo.refMain :=
  ⟨by decide,
   (save_snapshot_writes_objects_before_ref s0demo wd1 "first").2.2.1 1
     (by decide)⟩

/-- Claim C3 counterexample: at the S1 input the tree id hashed by
`_store_tree` is not the SHA-256 of the space-free canonical JSON encoding,
because `json.dumps(tree, sort_keys=True)` keeps its default separators
`", "` and `": "`. -/
theorem tree_id_not_compact_json_cx :
    dumpsTree (buildTreeEntries wd1) ≠ treeJsonCompact ∧
    storeTreeId (buildTreeEntries wd1) ≠ sha256hexS treeJsonCompact := by
  decide

/-- Claim C3 (amended): the tree identifier is the SHA-256 of
`json.dumps(tree, sort_keys=True)` with Python's default separators — an
ASCII space after every colon and comma. At the S1 input the hashed byte
string contains five spaces and the id is `e0e4…dfa5`. -/
theorem tree_id_spaced_json :
    dumpsTree (buildTreeEntries wd1) = treeJsonSpaced ∧
    storeTreeId (buildTreeEntries wd1) = sha256hexS treeJsonSpaced ∧
    storeTreeId (buildTreeEntries wd1) =
      "e0e4c2a8fe9dcc6209a50aa7715fa1ee025dbd598566ccd02e26a1cbae6edfa5" ∧
    treeJsonSpaced.data.count ' ' = 5 := by
  decide

/-- Claim C2 counterexample: at the S1 input, repeating the identical save
produces a *different* snapshot id (`s_64290475` after `s_181379010`) and
moves `refs/main`, refuting "same snapshot_id both times and refs/main
unchanged after the second call". -/
theorem second_save_differs_cx :
    (saveSnapshot s0demo wd1 "first").2 = "s_181379010" ∧
    (saveSnapshot (saveSnapshot s0demo wd1 "first").1 wd1 "first").2 =
      "s_64290475" ∧
    ¬ ((saveSnapshot (saveSnapshot s0demo wd1 "first").1 wd1 "first").2 =
         (saveSnapshot s0demo wd1 "first").2 ∧
       (saveSnapshot (saveSnapshot s0demo wd1 "first").1 wd1
           "first").1.refMain =
         (saveSnapshot s0demo wd1 "first").1.refMain) := by
  decide

/-- Claim C2 (amended): a second `save_snapshot` with the same message and
an unchanged working directory reads the ref the first call just moved, so
it commits a *child* snapshot: same tree id, parent equal to the first
snapshot id, snapshot id `s_⌊sha256(tree_id + first_id)[:8]⌋` (which differs
from the first id unless the 32-bit hash prefixes collide — at the S1 input
they differ), and `refs/main` is overwritten with the second id. -/
theorem second_save_creates_child (s : RepoState) (w : WorkDir)
    (m m' : String) :
    (saveSnapshot (saveSnapshot s w m).1 w m').2 =
      snapshotIdOf (storeTreeId (buildTreeEntries w)) (saveSnapshot s w m).2 ∧
    getKey (saveSnapshot (saveSnapshot s w m).1 w m').2
        (saveSnapshot (saveSnapshot s w m).1 w m').1.snapshots =
      some ⟨(saveSnapshot (saveSnapshot s w m).1 w m').2,
            storeTreeId (buildTreeEntries w),
            some (saveSnapshot s w m).2, m', timestampConst⟩ ∧
    (saveSnapshot (saveSnapshot s w m).1 w m').1.refMain =
      some (saveSnapshot (saveSnapshot s w m).1 w m').2 := by
  have hsid := sidLike_snapshotIdOf (storeTreeId (buildTreeEntries w))
    (parentOf s)
  have hparent : parentOf (saveSnapshot s w m).1 = (saveSnapshot s w m).2 := by
    rw [saveSnapshot_eq]
    exact hsid.1
  have hne : ¬ ((saveSnapshot s w m).2 = "") := by
    rw [saveSnapshot_eq]
    exact hsid.2
  constructor
  · rw [saveSnapshot_eq (saveSnapshot s w m).1 w m', hparent]
  · constructor
    · rw [saveSnapshot_eq (saveSnapshot s w m).1 w m', hparent]
      simp only [hne, if_false]
      exact getKey_setKey_self _ _ _
    · rw [saveSnapshot_eq (saveSnapshot s w m).1 w m']

/-- Claim C1: the code violates the claim. After rotating `R1` to `R2`,
replaying `R1` does return failure, but `_invalidate_token_family` deletes
only `R1`'s record and records pointing *into* it — never the successor
`R2` — so `R2`'s record survives and a subsequent presentation of `R2`
succeeds, contradicting the replay-containment the function's own
docstring ("invalidates all tokens") promises. -/
theorem replay_leaves_successor_valid :
    (validateAndRotate tsIssued "R1" none "R2" 1).1 =
      RotateResult.ok "alice" "R2" ∧
    (getKey (sha256hexS "R1") tsRotated).map (·.used) = some true ∧
    (getKey (sha256hexS "R1") tsRotated).map (·.rotated_to) =
      some (some (sha256hexS "R2")) ∧
    (validateAndRotate tsRotated "R1" none "R1x" 2).1 = RotateResult.failed ∧
    getKey (sha256hexS "R1") tsAfterReplay = none ∧
    (getKey (sha256hexS "R2") tsAfterReplay).isSome = true ∧
    (validateAndRotate tsAfterReplay "R2" none "R3" 3).1 =
      RotateResult.ok "alice" "R3" := by
  decide

/-- Claim C8 counterexample: for a request with no peer address
(`request.client is None`) the ip component is skipped entirely rather than
contributing an empty segment, so the hashed string `"a|b|c"` has two `|`
separators, not three, and the fingerprint differs from the claimed
`sha256("a||b|c")`. -/
theorem fingerprint_missing_peer_cx :
    fingerprintString reqNoClient = "a|b|c" ∧
    (fingerprintString reqNoClient).data.count '|' = 2 ∧
    generateFingerprint reqNoClient ≠ sha256hexS "a||b|c" := by
  decide

/-- Claim C8 (amended): the fingerprint is the SHA-256 of the `"|"`-joined
components; when the peer address is nonempty the hashed string is
`ua|partial_ip|lang|enc` (three separators, missing *headers* contributing
empty segments), but when the peer address is missing or empty the ip
component is omitted entirely, leaving `ua|lang|enc` with two separators. -/
theorem fingerprint_string_shape (r : Request) :
    generateFingerprint r = sha256hexS (fingerprintString r) ∧
    (clientIp r = "" →
      (fingerprintString r).data =
        (r.userAgent.getD "").data ++ '|' ::
          ((r.acceptLanguage.getD "").data ++ '|' ::
            (r.acceptEncoding.getD "").data)) ∧
    (clientIp r ≠ "" →
      (fingerprintString r).data =
        (r.userAgent.getD "").data ++ '|' ::
          ((partialIp (clientIp r)).data ++ '|' ::
            ((r.acceptLanguage.getD "").data ++ '|' ::
              (r.acceptEncoding.getD "").data))) := by
  refine ⟨rfl, ?_, ?_⟩ <;> intro h <;>
    simp [fingerprintString, fingerprintComponents, h, List.intercalate,
      List.intersperse]

/-- Witness for C8's amended theorem: one request with a peer address,
one without. -/
theorem fingerprint_string_shape_witness :
    (clientIp (Request.mk (some "ua0") (some "lang0") (some "enc0")
        (some "10.1.2.3")) ≠ "" ∧
     (fingerprintString (Request.mk (some "ua0") (some "lang0") (some "enc0")
        (some "10.1.2.3"))).data = "ua0|10.1.2|lang0|enc0".data) ∧
    (clientIp reqNoClient = "" ∧
     (fingerprintString reqNoClient).data = "a|b|c".data) :=
  ⟨⟨by decide,
    by
      have h := (fingerprint_string_shape
        (Request.mk (some "ua0") (some "lang0") (some "enc0")
          (some "10.1.2.3"))).2.2 (by decide)
      rw [h]; decide⟩,
   ⟨by decide,
    by
      have h := (fingerprint_string_shape reqNoClient).2.1 (by decide)
      rw [h]; decide⟩⟩

/-- Claim C7: an access token minted with fingerprint claim `fpt = F` fails
`verify_token` with a 401 error whenever the supplied request's computed
fingerprint differs from `F`; with no request supplied, verification is
exactly `jwt.decode` (signature and expiry alone). -/
theorem verify_token_fingerprint_binding :
    (∀ (secret sub F : String) (stepUp : Bool) (mint now : Nat) (r : Request),
        now < mint + accessTokenExpireMinutes * 60 →
        generateFingerprint r ≠ F →
        verifyToken secret (createAccessToken secret sub F stepUp mint)
            (some r) now = .error .fingerprintMismatch) ∧
    (∀ e : AuthError, e.status = 401) ∧
    (∀ (secret : String) (t : Jwt) (now : Nat),
        verifyToken secret t none now = jwtDecode secret t now) := by
  refine ⟨?_, ?_, ?_⟩
  · intro secret sub F stepUp mint now r hnow hne
    have hexp : ¬ (mint + accessTokenExpireMinutes * 60 ≤ now) := by omega
    simp [verifyToken, createAccessToken, jwtDecode, hexp, Ne.symm hne]
  · intro e; rfl
  · intro secret t now
    unfold verifyToken
    cases h : jwtDecode secret t now with
    | error e => rfl
    | ok payload => cases payload.fpt <;> rfl

/-- Witness for C7: concrete mint/verify with a drifting fingerprint. -/
theorem verify_token_fingerprint_binding_witness :
    1 < 0 + accessTokenExpireMinutes * 60 ∧
    generateFingerprint reqNoClient ≠ "F0" ∧
    verifyToken "k" (createAccessToken "k" "admin" "F0" false 0)
        (some reqNoClient) 1 = .error .fingerprintMismatch :=
  ⟨by decide, by decide,
   verify_token_fingerprint_binding.1 "k" "admin" "F0" false 0 1 reqNoClient
     (by decide) (by decide)⟩

/-- Claim C10: `get_user_role` yields `ADMIN` for the configured admin
username and `GUEST` for every other username — the `USER` role is never
returned — and a non-admin principal can pass `has_permission` only for
`read:repo` and `read:profile`. -/
theorem role_permissions_admin_or_guest (adminU u : String) (p : Permission) :
    getUserRole adminU adminU = Role.admin ∧
    (∀ v, getUserRole adminU v ≠ Role.user) ∧
    (u ≠ adminU → getUserRole adminU u = Role.guest) ∧
    (u ≠ adminU → hasPermission adminU (some u) p = true →
        (p = Permission.readRepo ∨ p = Permission.readProfile)) ∧
    (u ≠ adminU → p ≠ Permission.readRepo → p ≠ Permission.readProfile →
        hasPermission adminU (some u) p = false) := by
  refine ⟨?_, ?_, ?_, ?_, ?_⟩
  · simp [getUserRole]
  · intro v; unfold getUserRole; split <;> simp
  · intro h; simp [getUserRole, h]
  · intro h hp
    by_cases hu : u = ""
    · simp [hasPermission, hu] at hp
    · simp only [hasPermission, getUserRole, h, if_false, hu,
        rolePermissions] at hp
      revert hp
      cases p <;> decide
  · intro h h1 h2
    by_cases hu : u = ""
    · simp [hasPermission, hu]
    · simp only [hasPermission, getUserRole, h, if_false, hu,
        rolePermissions]
      cases p <;> first | decide | exact absurd rfl h1 | exact absurd rfl h2

/-- Claim C6 (amended): in every state reachable by `init_repo` followed by
any sequence of successful `save_snapshot` calls, `refs/main` resolves to a
snapshot whose `root_tree` exists and whose `parent` is null or an existing
snapshot (unconditionally); and provided the 32-bit snapshot ids produced
along the way are pairwise distinct — a condition that a concrete reachable
collision refutes in general — the whole parent chain is intact, following
parents terminates, and for any sufficient fuel `get_history` returns
exactly the saved snapshots newest to oldest. -/
theorem reachable_history_wellformed (name : String)
    (saves : List (WorkDir × String)) :
    RefOK (runSaves (initRepo name none) saves).1 ∧
    ((runSaves (initRepo name none) saves).2.Nodup →
      ChainOK (runSaves (initRepo name none) saves).1
        (runSaves (initRepo name none) saves).2 ∧
      ∀ extra,
        (getHistory ((runSaves (initRepo name none) saves).2.length + extra)
            (runSaves (initRepo name none) saves).1).map (·.snapshot_id) =
          (runSaves (initRepo name none) saves).2) := by
  constructor
  · exact refOK_runSaves saves _ (refOK_init name none)
  · intro hnd
    have h := runSaves_chain saves (initRepo name none) []
      (chainOK_nil _) rfl (by simpa using hnd)
    rw [List.append_nil] at h
    exact ⟨h.1, fun extra => getHistory_of_chain _ _ h.1 h.2 extra⟩

/-- Claim C6 counterexample: snapshot ids carry only 32 bits of hash, and a
collision is reachable. Saving `hello.txt = "hi\n"` (id `s_181379010`) and
then the file `0000000042daf093 = "x"` produces the *same* id
`s_181379010`: the second save overwrites the first snapshot object with a
record whose parent is itself, so following parent pointers from `refs/main`
cycles, and `get_history` — an unbounded `while` loop in the source,
fuel-bounded here — yields a list that grows with the bound instead of the
finite newest-to-oldest history the claim asserts for every reachable
state. -/
theorem history_collision_cycle_cx :
    (runSaves (initRepo "demo" none) [(wd1, "first"), (wdCollide, "second")]).2
      = ["s_181379010", "s_181379010"] ∧
    (getKey "s_181379010"
        (runSaves (initRepo "demo" none)
          [(wd1, "first"), (wdCollide, "second")]).1.snapshots).map
        (·.parent) = some (some "s_181379010") ∧
    (getHistory 5 (runSaves (initRepo "demo" none)
        [(wd1, "first"), (wdCollide, "second")]).1).length = 5 ∧
    (getHistory 9 (runSaves (initRepo "demo" none)
        [(wd1, "first"), (wdCollide, "second")]).1).length = 9 := by
  decide

/-- Witness for C6's amended theorem: two concrete saves from a fresh
repository produce distinct ids, and `get_history` lists them newest
first. -/
theorem reachable_history_wellformed_witness :
    (runSaves (initRepo "demo" none) [(wd1, "first"), (wd2, "second")]).2.Nodup
      ∧
    (getHistory 2
        (runSaves (initRepo "demo" none)
          [(wd1, "first"), (wd2, "second")]).1).map (·.snapshot_id) =
      (runSaves (initRepo "demo" none) [(wd1, "first"), (wd2, "second")]).2 :=
  ⟨by decide,
   ((reachable_history_wellformed "demo"
      [(wd1, "first"), (wd2, "second")]).2 (by decide)).2 0⟩

/-- Witness for C10 at a concrete non-admin username and a `user`-role-only
permission. -/
theorem role_permissions_admin_or_guest_witness :
    ("guest1" : String) ≠ "admin" ∧
    getUserRole "admin" "guest1" = Role.guest ∧
    hasPermission "admin" (some "guest1") Permission.writeRepo = false ∧
    (Permission.readRepo = Permission.readRepo ∨
      Permission.readRepo = Permission.readProfile) :=
  ⟨by decide,
   (role_permissions_admin_or_guest "admin" "guest1"
      Permission.writeRepo).2.2.1 (by decide),
   (role_permissions_admin_or_guest "admin" "guest1"
      Permission.writeRepo).2.2.2.2 (by decide) (by decide) (by decide),
   (role_permissions_admin_or_guest "admin" "guest1"
      Permission.readRepo).2.2.2.1 (by decide) (by decide)⟩

end Anchor
